import Mathlib

/-!
Shallow embedding of `karaoke-server/src/now_playing.rs` (the Queue Store).

Modelling conventions:
* `Uuid` is modelled as `Nat` (an opaque identifier; only equality is used).
* `OffsetDateTime` timestamps and `time::Duration` values are modelled as `Int`
  (a count of seconds); `Duration::minutes(5)` becomes the constant `300` and
  `Duration::is_positive` becomes `0 < d` (strictly positive, as in `time`).
* The tantivy `SearchIndex` collaborator is modelled as a lookup function from
  a song key to its record, together with a flag saying whether the search
  call itself returns `Err`.  `sha256::digest` is passed in as an abstract
  `hash : String → String` parameter where the code calls it.
* `VecDeque` is modelled as `List` (front = head, back = last).
* Channel sends and the file write are modelled by boolean outcomes supplied
  by the environment; JSON serialization is modelled as the identity on the
  record of serialized fields (`listeners` carries `serde(skip)` and is not
  part of it).
-/

namespace Karaoke

/-- Record returned by the song catalog for a key: `duration` (seconds),
`artist`, `title` (from `index.search_song` results). -/
structure SongInfo where
  duration : Int
  artist : String
  title : String
deriving Repr, DecidableEq

/-- The `SearchIndex` collaborator: `lookup k` is the record found for query
`rowid:k` (`none` when the result set is empty), and `searchFails = true`
models `search_song` itself returning `Err`. -/
structure SearchIndex where
  lookup : Int → Option SongInfo
  searchFails : Bool

/-- `PlaylistEntry` from the source: id, song key, singer, password digest,
predicted end time. -/
structure PlaylistEntry where
  id : Nat
  song : Int
  singer : String
  password_hash : String
  predicted_end : Int
deriving Repr, DecidableEq

/-- `InnerPlaylist`: play history (front = oldest), pending list, intermission
statistics.  The `listeners` map carries `serde(skip)` and is modelled
separately (as the ordered send outcomes of `did_change`). -/
structure InnerPlaylist where
  play_history : List PlaylistEntry
  list : List PlaylistEntry
  intermission_duration : Int
  intermission_count : Nat
deriving Repr, DecidableEq

/-- `Default` instance of `InnerPlaylist` (all collections empty, stats 0). -/
def InnerPlaylist.empty : InnerPlaylist :=
  { play_history := [], list := [], intermission_duration := 0,
    intermission_count := 0 }

/-- `MAX_PLAY_HISTORY` from the source. -/
def MAX_PLAY_HISTORY : Nat := 3

/-- `Duration::minutes(5)` in seconds. -/
def fiveMinutes : Int := 300

/-- The repeated `iter().enumerate().find_map(|(idx, entry)| (entry.id == id).then_some(idx))`
pattern, returning both the index of the first entry with the given id and
the entry itself (the code reads `list[idx]` right after). -/
def findEntry : List PlaylistEntry → Nat → Option (Nat × PlaylistEntry)
  | [], _ => none
  | e :: rest, i =>
    if e.id = i then some (0, e)
    else (findEntry rest i).map (fun p => (p.1 + 1, p.2))

/-- `Playlist::find_song_in_queue`: index of the first entry with the id. -/
def find_song_in_queue (playlist : List PlaylistEntry) (i : Nat) : Option Nat :=
  (findEntry playlist i).map Prod.fst

/-- Average intermission in `did_change`:
`intermission_duration.checked_div(intermission_count)` with
`unwrap_or_default()` (zero) when the count is zero. -/
def averageIntermission (st : InnerPlaylist) : Int :=
  if st.intermission_count = 0 then 0
  else st.intermission_duration / (st.intermission_count : Int)

/-- Starting timestamp of the prediction walk: predicted end of the last
history entry, else `now` (`play_history.back() ... unwrap_or_else(now_utc)`). -/
def startTimestamp (now : Int) (st : InnerPlaylist) : Int :=
  match st.play_history.getLast? with
  | some e => e.predicted_end
  | none => now

/-- The prediction loop of `did_change`: walk the pending list keeping a
running timestamp; entries whose song resolves advance the timestamp by
(average intermission + duration) and take it as their predicted end;
unresolved entries are left untouched. -/
def predictWalk (lookup : Int → Option SongInfo) (avg : Int) :
    Int → List PlaylistEntry → List PlaylistEntry
  | _, [] => []
  | ts, e :: rest =>
    match lookup e.song with
    | some s =>
      let ts2 := ts + avg + s.duration
      { e with predicted_end := ts2 } :: predictWalk lookup avg ts2 rest
    | none => e :: predictWalk lookup avg ts rest

/-- State effect of `Playlist::did_change` on `InnerPlaylist`: when the batch
search fails the function errors before touching the state; otherwise the
predicted ends are recomputed in place (sends and the file write do not
change the in-memory state). -/
def didChangeState (index : SearchIndex) (now : Int) (st : InnerPlaylist) :
    InnerPlaylist :=
  if index.searchFails then st
  else
    { st with
      list := predictWalk index.lookup (averageIntermission st)
        (startTimestamp now st) st.list }

/-- Steps `did_change` performs after the in-memory mutation, in order. -/
inductive Step where
  | recompute
  | broadcast
  | persist
deriving Repr, DecidableEq

/-- The `for listener in inner.listeners.values() { listener.send(json)?; }`
loop over the ordered send outcomes: number of successful sends before the
first failure, and whether every send succeeded (`?` aborts at the first
failed send). -/
def broadcastLoop : List Bool → Nat × Bool
  | [] => (0, true)
  | b :: rest =>
    if b then
      let r := broadcastLoop rest
      (r.1 + 1, r.2)
    else (0, false)

/-- Outcome of one `did_change` call: resulting in-memory state, how many
listeners received the snapshot, whether the file write happened, and whether
the call returned `Ok`. -/
structure DidChangeOutcome where
  state : InnerPlaylist
  delivered : Nat
  persisted : Bool
  ok : Bool
deriving Repr, DecidableEq

/-- Full model of `Playlist::did_change`: batch search (`?`), prediction
recompute, serialize, send to every listener (`?`), then create and write the
persistence file (`?`).  Returns the outcome and the ordered list of steps
that executed. -/
def did_change (index : SearchIndex) (listeners : List Bool)
    (persistOk : Bool) (now : Int) (st : InnerPlaylist) :
    DidChangeOutcome × List Step :=
  if index.searchFails then
    ({ state := st, delivered := 0, persisted := false, ok := false }, [])
  else
    let st2 := didChangeState index now st
    let send := broadcastLoop listeners
    if send.2 then
      if persistOk then
        ({ state := st2, delivered := send.1, persisted := true, ok := true },
          [Step.recompute, Step.broadcast, Step.persist])
      else
        ({ state := st2, delivered := send.1, persisted := false, ok := false },
          [Step.recompute, Step.broadcast, Step.persist])
    else
      ({ state := st2, delivered := send.1, persisted := false, ok := false },
        [Step.recompute, Step.broadcast])

/-- Result of `Playlist::add`: `rejected` is `Ok(None)` (song outside the
valid set), `fault` is `Err` (search failure or valid-but-unresolvable song),
`added` is `Ok(Some(id))`. -/
inductive AddOutcome where
  | rejected
  | fault
  | added (id : Nat)
deriving Repr, DecidableEq

/-- `Playlist::add`: reject invalid songs, error when the catalog cannot
resolve a valid song, otherwise append at the tail with predicted end =
previous tail's predicted end + duration (or `now` on an empty queue), store
`digest(password)`, and run `did_change`.  `newId` stands for the fresh
`Uuid::new_v4()`. -/
def add (valid : List Int) (hash : String → String) (index : SearchIndex)
    (now : Int) (song : Int) (singer password : String) (newId : Nat)
    (st : InnerPlaylist) : AddOutcome × InnerPlaylist :=
  if ¬ valid.contains song then (AddOutcome.rejected, st)
  else if index.searchFails then (AddOutcome.fault, st)
  else
    match index.lookup song with
    | none => (AddOutcome.fault, st)
    | some s =>
      let predictedEnd :=
        match st.list.getLast? with
        | none => now
        | some last => last.predicted_end + s.duration
      let entry : PlaylistEntry :=
        { id := newId, song := song, singer := singer,
          password_hash := hash password, predicted_end := predictedEnd }
      (AddOutcome.added newId,
        didChangeState index now { st with list := st.list ++ [entry] })

/-- `Playlist::play`.  When the id is not in the pending list the call
returns `Ok(false)` untouched.  When the audit `search_song` call fails the
error is only logged and the whole `Ok(songs)` block — history move,
intermission update, `did_change`, song log — is skipped, yet the call still
returns `Ok(true)`.  Otherwise: evict the oldest history entry at capacity,
remember the index of the previous history tail, move the entry from the
pending list to the back of the history, and add `now - old_tail.predicted_end`
to the intermission statistics when it is below five minutes and strictly
positive; then `did_change`. -/
def play (index : SearchIndex) (now : Int) (i : Nat) (st : InnerPlaylist) :
    Bool × InnerPlaylist :=
  match findEntry st.list i with
  | none => (false, st)
  | some (idx, e) =>
    if index.searchFails then (true, st)
    else
      let evicted :=
        if MAX_PLAY_HISTORY ≤ st.play_history.length then st.play_history.tail
        else st.play_history
      let st1 : InnerPlaylist :=
        { st with
          play_history := evicted ++ [e]
          list := st.list.eraseIdx idx }
      let st2 :=
        match evicted.getLast? with
        | none => st1
        | some old =>
          let d := now - old.predicted_end
          if d < fiveMinutes ∧ 0 < d then
            { st1 with
              intermission_count := st1.intermission_count + 1
              intermission_duration := st1.intermission_duration + d }
          else st1
      (true, didChangeState index now st2)

/-- `Playlist::remove`: delete the entry with the id from the pending list,
then `did_change`; `Ok(false)` when absent. -/
def remove (index : SearchIndex) (now : Int) (i : Nat) (st : InnerPlaylist) :
    Bool × InnerPlaylist :=
  match findEntry st.list i with
  | none => (false, st)
  | some (idx, _) =>
    (true, didChangeState index now { st with list := st.list.eraseIdx idx })

/-- `Playlist::remove_if_password_correct`: delete only when
`digest(password)` equals the stored digest; wrong secret and missing id both
return `Ok(false)` with no mutation. -/
def remove_if_password_correct (hash : String → String) (index : SearchIndex)
    (now : Int) (i : Nat) (password : String) (st : InnerPlaylist) :
    Bool × InnerPlaylist :=
  match findEntry st.list i with
  | none => (false, st)
  | some (idx, e) =>
    if hash password = e.password_hash then
      (true, didChangeState index now { st with list := st.list.eraseIdx idx })
    else (false, st)

/-- `VecDeque::swap` on the list model (both indices in bounds in context). -/
def listSwap (l : List PlaylistEntry) (i j : Nat) : List PlaylistEntry :=
  match l.get? i, l.get? j with
  | some a, some b => (l.set i b).set j a
  | _, _ => l

/-- `Playlist::swap`: `Ok(false)` when the ids are equal or either is
missing; otherwise exchange positions and `did_change`. -/
def swap (index : SearchIndex) (now : Int) (id1 id2 : Nat)
    (st : InnerPlaylist) : Bool × InnerPlaylist :=
  if id1 = id2 then (false, st)
  else
    match findEntry st.list id1 with
    | none => (false, st)
    | some (i, _) =>
      match findEntry st.list id2 with
      | none => (false, st)
      | some (j, _) =>
        (true, didChangeState index now { st with list := listSwap st.list i j })

/-- `Playlist::move_after`: `Ok(false)` when `id == after` or either id is
missing.  Both indices are taken in the original list; when the moved entry
precedes the anchor it is removed and re-inserted at the anchor's original
index (the slot right after the anchor's post-removal position), otherwise at
the anchor's original index + 1. -/
def move_after (index : SearchIndex) (now : Int) (i after : Nat)
    (st : InnerPlaylist) : Bool × InnerPlaylist :=
  if i = after then (false, st)
  else
    match findEntry st.list i with
    | none => (false, st)
    | some (idx, e) =>
      match findEntry st.list after with
      | none => (false, st)
      | some (aidx, _) =>
        let l2 :=
          if idx < aidx then (st.list.eraseIdx idx).insertIdx aidx e
          else (st.list.eraseIdx idx).insertIdx (aidx + 1) e
        (true, didChangeState index now { st with list := l2 })

/-- `Playlist::move_top`: remove the entry and push it at the front, then
`did_change`; `Ok(false)` when absent. -/
def move_top (index : SearchIndex) (now : Int) (i : Nat)
    (st : InnerPlaylist) : Bool × InnerPlaylist :=
  match findEntry st.list i with
  | none => (false, st)
  | some (idx, e) =>
    (true, didChangeState index now { st with list := e :: st.list.eraseIdx idx })

/-- Result of `Playlist::report_bug` as seen by the caller. -/
inductive BugOutcome where
  | ok
  | err
deriving Repr, DecidableEq

/-- `Playlist::report_bug`: a song outside the valid set only logs and
returns `Ok(())`; then `index.search_song(..)?` propagates a search failure;
an empty result set only logs; otherwise the record is appended and a failed
write is only logged — every remaining path returns `Ok(())`. -/
def report_bug (valid : List Int) (index : SearchIndex) (song : Int)
    (_report : String) : BugOutcome :=
  if ¬ valid.contains song then BugOutcome.ok
  else if index.searchFails then BugOutcome.err
  else
    match index.lookup song with
    | none => BugOutcome.ok
    | some _ => BugOutcome.ok

/-- The serialized fields of `InnerPlaylist` (`listeners` is `serde(skip)`);
JSON encode/decode of this record is modelled as the identity. -/
structure PersistedState where
  play_history : List PlaylistEntry
  list : List PlaylistEntry
  intermission_duration : Int
  intermission_count : Nat
deriving Repr, DecidableEq

/-- Snapshot written by `did_change`. -/
def persist (st : InnerPlaylist) : PersistedState :=
  { play_history := st.play_history, list := st.list,
    intermission_duration := st.intermission_duration,
    intermission_count := st.intermission_count }

/-- What `File::open` + read + decode of the persistence file can yield:
the file is missing, reading fails some other way, the contents do not
decode, or a decoded snapshot. -/
inductive FileRead where
  | notFound
  | ioError
  | corrupt
  | content (p : PersistedState)

/-- `Playlist::load` restricted to the persisted state (the log-file handles
are environment setup): a missing file yields the default empty state, any
other read or decode fault is an error, and a decoded snapshot is kept after
dropping pending and history entries whose song is outside the valid set. -/
def load (valid : List Int) : FileRead → Except Unit InnerPlaylist
  | FileRead.notFound => Except.ok InnerPlaylist.empty
  | FileRead.ioError => Except.error ()
  | FileRead.corrupt => Except.error ()
  | FileRead.content p =>
    Except.ok
      { play_history := p.play_history.filter (fun e => valid.contains e.song)
        list := p.list.filter (fun e => valid.contains e.song)
        intermission_duration := p.intermission_duration
        intermission_count := p.intermission_count }

/-- One mutation request against the store, with the environment inputs
(`SearchIndex`, clock, fresh id, digest function) it is served with. -/
inductive Op where
  | opAdd (song : Int) (singer password : String) (hash : String → String)
      (newId : Nat) (index : SearchIndex) (now : Int)
  | opPlay (i : Nat) (index : SearchIndex) (now : Int)
  | opRemove (i : Nat) (index : SearchIndex) (now : Int)
  | opRemovePw (i : Nat) (password : String) (hash : String → String)
      (index : SearchIndex) (now : Int)
  | opSwap (id1 id2 : Nat) (index : SearchIndex) (now : Int)
  | opMoveAfter (i after : Nat) (index : SearchIndex) (now : Int)
  | opMoveTop (i : Nat) (index : SearchIndex) (now : Int)

/-- In-memory state after serving one request (the state is kept even when
the call returns an error, matching the `&mut` mutation under the lock). -/
def applyOp (valid : List Int) (st : InnerPlaylist) : Op → InnerPlaylist
  | Op.opAdd song singer password hash newId index now =>
    (add valid hash index now song singer password newId st).2
  | Op.opPlay i index now => (play index now i st).2
  | Op.opRemove i index now => (remove index now i st).2
  | Op.opRemovePw i password hash index now =>
    (remove_if_password_correct hash index now i password st).2
  | Op.opSwap id1 id2 index now => (swap index now id1 id2 st).2
  | Op.opMoveAfter i after index now => (move_after index now i after st).2
  | Op.opMoveTop i index now => (move_top index now i st).2

/-- State after a whole sequence of requests. -/
def applyOps (valid : List Int) (st : InnerPlaylist) (ops : List Op) :
    InnerPlaylist :=
  ops.foldl (applyOp valid) st

/-! Helper lemmas. -/

theorem findEntry_some {l : List PlaylistEntry} {i idx : Nat}
    {e : PlaylistEntry} (h : findEntry l i = some (idx, e)) :
    l[idx]? = some e ∧ e.id = i := by
  induction l generalizing idx with
  | nil => simp [findEntry] at h
  | cons a rest ih =>
    by_cases ha : a.id = i
    · simp [findEntry, ha] at h
      obtain ⟨h1, h2⟩ := h
      subst h1; subst h2
      simpa using ha
    · simp only [findEntry, if_neg ha, Option.map_eq_some'] at h
      obtain ⟨⟨idx2, e2⟩, hfind, h2⟩ := h
      obtain ⟨h3, h4⟩ := Prod.mk.injEq .. ▸ h2
      subst h3; subst h4
      simpa using ih hfind

theorem findEntry_eq_none {l : List PlaylistEntry} {i : Nat} :
    findEntry l i = none ↔ ∀ e ∈ l, e.id ≠ i := by
  induction l with
  | nil => simp [findEntry]
  | cons a rest ih =>
    by_cases ha : a.id = i
    · simp [findEntry, ha]
    · simp [findEntry, ha, ih]

theorem didChangeState_play_history (index : SearchIndex) (now : Int)
    (st : InnerPlaylist) :
    (didChangeState index now st).play_history = st.play_history := by
  unfold didChangeState
  split <;> rfl

theorem didChangeState_intermission_count (index : SearchIndex) (now : Int)
    (st : InnerPlaylist) :
    (didChangeState index now st).intermission_count =
      st.intermission_count := by
  unfold didChangeState
  split <;> rfl

theorem didChangeState_intermission_duration (index : SearchIndex) (now : Int)
    (st : InnerPlaylist) :
    (didChangeState index now st).intermission_duration =
      st.intermission_duration := by
  unfold didChangeState
  split <;> rfl

theorem predictWalk_map_id (lookup : Int → Option SongInfo) (avg : Int) :
    ∀ (ts : Int) (l : List PlaylistEntry),
      (predictWalk lookup avg ts l).map (fun e => e.id) =
        l.map (fun e => e.id)
  | _, [] => rfl
  | ts, e :: rest => by
    unfold predictWalk
    cases lookup e.song with
    | none => simpa using predictWalk_map_id lookup avg ts rest
    | some s => simpa using predictWalk_map_id lookup avg _ rest

/-! Concrete fixtures used by counterexamples and witnesses. -/

/-- Catalog record used by the concrete scenarios. -/
def demoSong : SongInfo := { duration := 10, artist := "a", title := "t" }

/-- Index that resolves every key to `demoSong` and never fails. -/
def okIndex : SearchIndex :=
  { lookup := fun _ => some demoSong, searchFails := false }

/-- Index whose `search_song` calls return `Err`. -/
def failIndex : SearchIndex :=
  { lookup := fun _ => none, searchFails := true }

/-- Already-played entry whose predicted end is the epoch. -/
def entry0 : PlaylistEntry :=
  { id := 0, song := 7, singer := "s", password_hash := "h",
    predicted_end := 0 }

/-- Pending entries. -/
def entry1 : PlaylistEntry :=
  { id := 1, song := 7, singer := "s", password_hash := "h",
    predicted_end := 50 }

def entry2 : PlaylistEntry :=
  { id := 2, song := 7, singer := "s", password_hash := "h",
    predicted_end := 60 }

def entry3 : PlaylistEntry :=
  { id := 3, song := 7, singer := "s", password_hash := "h",
    predicted_end := 70 }

/-- State with one history entry and three pending entries. -/
def stDemo : InnerPlaylist :=
  { play_history := [entry0], list := [entry1, entry2, entry3],
    intermission_duration := 0, intermission_count := 0 }

/-- `broadcastLoop` only reports success after sending to every listener. -/
theorem broadcastLoop_all (listeners : List Bool) :
    (broadcastLoop listeners).2 = true →
    (broadcastLoop listeners).1 = listeners.length := by
  induction listeners with
  | nil => intro _; rfl
  | cons b rest ih =>
    cases b with
    | false => simp [broadcastLoop]
    | true =>
      intro h
      have h2 : (broadcastLoop rest).2 = true := h
      show (broadcastLoop rest).1 + 1 = rest.length + 1
      rw [ih h2]

/-- C2: evaluating `play` at a state whose pending queue holds the id while
the audit `search_song` call fails: the call reports the entry as found
(`Ok(true)`) yet the pending queue, play history and statistics are left
unchanged and no apply-change step runs — the audit resolution failure does
prevent the queue mutation, contrary to the documented intent (the code's
own log message says the fetch only serves the song log). -/
theorem play_audit_failure_skips_mutation :
    play failIndex 100 1 stDemo = (true, stDemo) := rfl

/-- C3 counterexample: with song 7 in the valid set and a catalog whose
search call itself fails, `report_bug` returns the error to the caller
instead of completing successfully. -/
theorem report_bug_search_failure_errors :
    report_bug [7] failIndex 7 "text" = BugOutcome.err := rfl

/-- C3 amended: `report_bug` never fails the caller for a song outside the
valid set, nor for a valid song the catalog resolves to an empty result, nor
on a log-write failure; it returns an error exactly when the song is in the
valid set and the catalog search call itself fails. -/
theorem report_bug_error_iff (valid : List Int) (index : SearchIndex)
    (song : Int) (r : String) :
    report_bug valid index song r = BugOutcome.err ↔
      valid.contains song = true ∧ index.searchFails = true := by
  unfold report_bug
  cases hv : valid.contains song with
  | false => simp [hv]
  | true =>
    cases hf : index.searchFails with
    | true => simp [hf]
    | false => cases hl : index.lookup song <;> simp [hf, hl]

/-- C4: with two registered listeners whose first send fails, `did_change`
delivers the snapshot to no further listener, skips the file write, and
returns the error — a single delivery fault prevents the other listener from
receiving the update and aborts the mutation instead of being isolated. -/
theorem did_change_send_failure_aborts :
    (did_change okIndex [false, true] true 0 stDemo).1.ok = false ∧
    (did_change okIndex [false, true] true 0 stDemo).1.delivered = 0 ∧
    (did_change okIndex [false, true] true 0 stDemo).1.persisted = false :=
  ⟨rfl, rfl, rfl⟩

/-- C5 counterexample: on a successful apply-change the executed step order
is recompute, broadcast, persist — not the claimed recompute, persist,
broadcast — and when the file write fails after a successful broadcast the
listener has received a snapshot that was never persisted, which is exactly
the inconsistency direction the claim rules out. -/
theorem did_change_order_cex :
    (did_change okIndex [true] true 0 stDemo).2 =
      [Step.recompute, Step.broadcast, Step.persist] ∧
    [Step.recompute, Step.broadcast, Step.persist] ≠
      [Step.recompute, Step.persist, Step.broadcast] ∧
    (did_change okIndex [true] false 0 stDemo).1.delivered = 1 ∧
    (did_change okIndex [true] false 0 stDemo).1.persisted = false :=
  ⟨rfl, by decide, rfl, rfl⟩

/-- C5 amended: a successful mutation runs mutate → recompute → broadcast →
persist: whenever `did_change` returns `Ok` the executed steps are exactly
recompute, broadcast, persist in that order, and the snapshot is persisted
only after every registered listener received it, so the only possible
disk/broadcast inconsistency on a mid-operation failure is a snapshot that
was broadcast but not yet persisted. -/
theorem did_change_step_order (index : SearchIndex) (listeners : List Bool)
    (persistOk : Bool) (now : Int) (st : InnerPlaylist) :
    ((did_change index listeners persistOk now st).1.ok = true →
      (did_change index listeners persistOk now st).2 =
        [Step.recompute, Step.broadcast, Step.persist]) ∧
    ((did_change index listeners persistOk now st).1.persisted = true →
      (did_change index listeners persistOk now st).1.delivered =
        listeners.length) := by
  unfold did_change
  cases hf : index.searchFails with
  | true => simp [hf]
  | false =>
    simp only [hf, Bool.false_eq_true, if_false]
    cases hs : (broadcastLoop listeners).2 with
    | false => simp [hs]
    | true =>
      cases persistOk with
      | false => simp [hs]
      | true => simp [hs, broadcastLoop_all listeners hs]

/-- Witness for the amended C5 at a concrete successful call. -/
theorem did_change_step_order_witness :
    (did_change okIndex [true, true] true 5 stDemo).2 =
      [Step.recompute, Step.broadcast, Step.persist] ∧
    (did_change okIndex [true, true] true 5 stDemo).1.delivered = 2 := by
  refine ⟨(did_change_step_order okIndex [true, true] true 5 stDemo).1 rfl, ?_⟩
  have h := (did_change_step_order okIndex [true, true] true 5 stDemo).2 rfl
  simpa using h

/-- C9: persisting a state and loading it back with the same valid-song set
reproduces the pending queue, play history and intermission statistics minus
the entries whose song is outside the set — exactly the original state when
every referenced song is valid; a missing file loads as the empty default
state, and any other read fault or decode fault is an error. -/
theorem persist_load_roundtrip (valid : List Int) (st : InnerPlaylist) :
    load valid (FileRead.content (persist st)) =
      Except.ok
        { play_history := st.play_history.filter (fun e => valid.contains e.song)
          list := st.list.filter (fun e => valid.contains e.song)
          intermission_duration := st.intermission_duration
          intermission_count := st.intermission_count } ∧
    ((∀ e ∈ st.play_history, valid.contains e.song) →
      (∀ e ∈ st.list, valid.contains e.song) →
      load valid (FileRead.content (persist st)) = Except.ok st) ∧
    load valid FileRead.notFound = Except.ok InnerPlaylist.empty ∧
    load valid FileRead.ioError = Except.error () ∧
    load valid FileRead.corrupt = Except.error () := by
  refine ⟨rfl, ?_, rfl, rfl, rfl⟩
  intro h1 h2
  simp only [load, persist, List.filter_eq_self.mpr h1,
    List.filter_eq_self.mpr h2]

/-- Witness for C9 at a concrete state all of whose songs are valid. -/
theorem persist_load_roundtrip_witness :
    load [7] (FileRead.content (persist stDemo)) = Except.ok stDemo :=
  (persist_load_roundtrip [7] stDemo).2.1 (by decide) (by decide)

/-- C1 counterexample: playing entry 1 at the very instant the previous
history tail was predicted to end, a measured gap of exactly 0: the entry is
found and moved to the history, yet the intermission count and cumulative
duration stay 0 — a gap of exactly 0 is not applied to the statistics,
because `duration.is_positive()` requires a strictly positive delta. -/
theorem play_zero_gap_not_counted :
    (0 : Int) - entry0.predicted_end = 0 ∧
    (play okIndex 0 1 stDemo).1 = true ∧
    (play okIndex 0 1 stDemo).2.play_history = [entry0, entry1] ∧
    (play okIndex 0 1 stDemo).2.intermission_count = 0 ∧
    (play okIndex 0 1 stDemo).2.intermission_duration = 0 :=
  ⟨rfl, rfl, rfl, rfl, rfl⟩

/-- C1 amended: when `play` finds the id, the audit search succeeds and the
history is non-empty (so a previous tail with predicted end exists), the
measured delta `now - old.predicted_end` is applied to the intermission
statistics if and only if it is strictly positive and below five minutes: a
gap of exactly 4:59 updates the running cumulative duration and count, while
a gap of exactly 0, a negative gap, or a gap of 5:00 or more leaves them
unchanged. -/
theorem play_intermission_window (index : SearchIndex) (now : Int) (i : Nat)
    (st : InnerPlaylist) (idx : Nat) (e old : PlaylistEntry)
    (hfind : findEntry st.list i = some (idx, e))
    (hfail : index.searchFails = false)
    (hlast : st.play_history.getLast? = some old) :
    (play index now i st).1 = true ∧
    (play index now i st).2.intermission_count =
      (if now - old.predicted_end < fiveMinutes ∧ 0 < now - old.predicted_end
       then st.intermission_count + 1 else st.intermission_count) ∧
    (play index now i st).2.intermission_duration =
      (if now - old.predicted_end < fiveMinutes ∧ 0 < now - old.predicted_end
       then st.intermission_duration + (now - old.predicted_end)
       else st.intermission_duration) := by
  have hnil : st.play_history ≠ [] := by
    intro hn
    rw [hn] at hlast
    simp at hlast
  have hevicted :
      (if MAX_PLAY_HISTORY ≤ st.play_history.length then st.play_history.tail
       else st.play_history).getLast? = some old := by
    split
    · rw [List.getLast?_tail, if_neg, hlast]
      have := List.length_pos.mpr hnil
      unfold MAX_PLAY_HISTORY at *
      omega
    · exact hlast
  by_cases hc :
      now - old.predicted_end < fiveMinutes ∧ 0 < now - old.predicted_end
  · simp only [play, hfind, hfail, Bool.false_eq_true, if_false, hevicted,
      if_pos hc, didChangeState_intermission_count,
      didChangeState_intermission_duration]
    exact ⟨trivial, trivial, trivial⟩
  · simp only [play, hfind, hfail, Bool.false_eq_true, if_false, hevicted,
      if_neg hc, didChangeState_intermission_count,
      didChangeState_intermission_duration]
    exact ⟨trivial, trivial, trivial⟩

/-- Witness for the amended C1: a measured gap of exactly 4:59 (299 seconds)
increments the count and adds 299 seconds to the cumulative duration. -/
theorem play_intermission_window_witness :
    (play okIndex 299 1 stDemo).1 = true ∧
    (play okIndex 299 1 stDemo).2.intermission_count = 1 ∧
    (play okIndex 299 1 stDemo).2.intermission_duration = 299 := by
  obtain ⟨h1, h2, h3⟩ :=
    play_intermission_window okIndex 299 1 stDemo 0 entry1 entry0 rfl rfl rfl
  refine ⟨h1, ?_, ?_⟩
  · rw [h2]; decide
  · rw [h3]; decide

/-- Insertion at `n` puts the element at position `n`. -/
theorem getElem?_insertIdx_self_of_le {α : Type} (l : List α) (x : α) (n : Nat)
    (hn : n ≤ l.length) : (l.insertIdx n x)[n]? = some x := by
  have hlen : n < (l.insertIdx n x).length := by
    rw [List.length_insertIdx n l hn]
    omega
  rw [List.getElem?_eq_getElem hlen, List.getElem_insertIdx_self l x n hn]

/-- Insertion at `n` leaves positions below `n` unchanged. -/
theorem getElem?_insertIdx_of_lt {α : Type} (l : List α) (x : α) (n k : Nat)
    (hk : k < n) (hkl : k < l.length) : (l.insertIdx n x)[k]? = l[k]? := by
  have h2 : k < (l.insertIdx n x).length :=
    lt_of_lt_of_le hkl (List.length_le_length_insertIdx l x n)
  rw [List.getElem?_eq_getElem h2, List.getElem?_eq_getElem hkl,
    List.getElem_insertIdx_of_lt l x n k hk hkl]

/-- Apply-change keeps the ids of the pending queue in place: the prediction
walk only rewrites predicted ends. -/
theorem didChangeState_map_id (index : SearchIndex) (now : Int)
    (st : InnerPlaylist) :
    (didChangeState index now st).list.map (fun e => e.id) =
      st.list.map (fun e => e.id) := by
  unfold didChangeState
  split
  · rfl
  · simpa using predictWalk_map_id index.lookup (averageIntermission st)
      (startTimestamp now st) st.list

/-- C6: `move_after` returns false when the two ids are equal or either one
is missing from the pending queue; when both are present and distinct the
moved entry always ends directly behind the anchor: with original indices
`idx` (moved) and `aidx` (anchor), the anchor sits at `aidx - 1` after the
move when the moved entry preceded it (its post-removal position) and at its
original `aidx` otherwise, and the moved id sits at the next position. -/
theorem move_after_spec (index : SearchIndex) (now : Int) (i after : Nat)
    (st : InnerPlaylist) :
    (i = after → move_after index now i after st = (false, st)) ∧
    (findEntry st.list i = none →
      move_after index now i after st = (false, st)) ∧
    (findEntry st.list after = none →
      move_after index now i after st = (false, st)) ∧
    (∀ idx aidx e a, i ≠ after →
      findEntry st.list i = some (idx, e) →
      findEntry st.list after = some (aidx, a) →
      (move_after index now i after st).1 = true ∧
      ((move_after index now i after st).2.list.map
          (fun x => x.id))[if idx < aidx then aidx - 1 else aidx]? =
        some after ∧
      ((move_after index now i after st).2.list.map
          (fun x => x.id))[(if idx < aidx then aidx - 1 else aidx) + 1]? =
        some i) := by
  refine ⟨?_, ?_, ?_, ?_⟩
  · intro h
    simp [move_after, h]
  · intro h
    unfold move_after
    split
    · rfl
    · rw [h]
  · intro h
    by_cases he : i = after
    · simp [move_after, he]
    · rcases hfi : findEntry st.list i with _ | ⟨idx, e⟩
      · simp [move_after, he, hfi]
      · simp [move_after, he, hfi, h]
  · intro idx aidx e a hne hfi hfa
    obtain ⟨hge, hei⟩ := findEntry_some hfi
    obtain ⟨hga, hai⟩ := findEntry_some hfa
    have hidx : idx < st.list.length := by
      rcases List.getElem?_eq_some_iff.mp hge with ⟨h, _⟩
      exact h
    have haidx : aidx < st.list.length := by
      rcases List.getElem?_eq_some_iff.mp hga with ⟨h, _⟩
      exact h
    have hdiff : idx ≠ aidx := by
      intro h
      apply hne
      rw [h] at hge
      rw [hge] at hga
      have : e = a := by injection hga
      rw [← hei, ← hai, this]
    have hL : (st.list.eraseIdx idx).length + 1 = st.list.length :=
      List.length_eraseIdx_add_one hidx
    by_cases hlt : idx < aidx
    · have h1 : aidx - 1 + 1 = aidx := by omega
      simp only [move_after, if_neg hne, hfi, hfa, if_pos hlt]
      refine ⟨by trivial, ?_, ?_⟩
      · simp only [didChangeState_map_id, List.getElem?_map]
        rw [getElem?_insertIdx_of_lt _ _ _ _ (by omega) (by omega),
          List.getElem?_eraseIdx_of_ge _ _ _ (by omega), h1, hga]
        simp [hai]
      · simp only [didChangeState_map_id, List.getElem?_map]
        rw [h1, getElem?_insertIdx_self_of_le _ _ _ (by omega)]
        simp [hei]
    · simp only [move_after, if_neg hne, hfi, hfa, if_neg hlt]
      refine ⟨by trivial, ?_, ?_⟩
      · simp only [didChangeState_map_id, List.getElem?_map]
        rw [getElem?_insertIdx_of_lt _ _ _ _ (by omega) (by omega),
          List.getElem?_eraseIdx_of_lt _ _ _ (by omega), hga]
        simp [hai]
      · simp only [didChangeState_map_id, List.getElem?_map]
        rw [getElem?_insertIdx_self_of_le _ _ _ (by omega)]
        simp [hei]

/-- Witness for C6: in the three-entry queue, moving id 1 behind id 3 places
3 at position 1 and 1 at position 2. -/
theorem move_after_spec_witness :
    (move_after okIndex 0 1 3 stDemo).1 = true ∧
    ((move_after okIndex 0 1 3 stDemo).2.list.map (fun x => x.id))[1]? =
      some 3 ∧
    ((move_after okIndex 0 1 3 stDemo).2.list.map (fun x => x.id))[2]? =
      some 1 := by
  have h := (move_after_spec okIndex 0 1 3 stDemo).2.2.2 0 2 entry1 entry3
    (by decide) rfl rfl
  simpa using h

/-- Shape of the history after a successful `play`: evict the front when at
capacity, then append the played entry at the back. -/
theorem play_history_shape (index : SearchIndex) (now : Int) (i : Nat)
    (st : InnerPlaylist) (idx : Nat) (e : PlaylistEntry)
    (hf : findEntry st.list i = some (idx, e))
    (hs : index.searchFails = false) :
    (play index now i st).2.play_history =
      (if MAX_PLAY_HISTORY ≤ st.play_history.length then st.play_history.tail
       else st.play_history) ++ [e] := by
  simp only [play, hf, hs, Bool.false_eq_true, if_false,
    didChangeState_play_history]
  split
  · rfl
  · split
    · rfl
    · rfl

/-- `play` keeps the history within capacity. -/
theorem play_history_le (index : SearchIndex) (now : Int) (i : Nat)
    (st : InnerPlaylist) (h : st.play_history.length ≤ MAX_PLAY_HISTORY) :
    (play index now i st).2.play_history.length ≤ MAX_PLAY_HISTORY := by
  rcases hf : findEntry st.list i with _ | ⟨idx, e⟩
  · simp only [play, hf]
    exact h
  · cases hs : index.searchFails with
    | true =>
      simp only [play, hf, hs, if_true]
      exact h
    | false =>
      rw [play_history_shape index now i st idx e hf hs, List.length_append]
      split
      · simp only [List.length_tail, List.length_singleton,
          MAX_PLAY_HISTORY] at *
        omega
      · simp only [List.length_singleton, MAX_PLAY_HISTORY] at *
        omega

/-- Every operation keeps the history within capacity. -/
theorem applyOp_history_le (valid : List Int) (op : Op) (st : InnerPlaylist)
    (h : st.play_history.length ≤ MAX_PLAY_HISTORY) :
    (applyOp valid st op).play_history.length ≤ MAX_PLAY_HISTORY := by
  cases op with
  | opPlay i index now => exact play_history_le index now i st h
  | opAdd song singer password hash newId index now =>
    simp only [applyOp, add]
    repeat' split
    all_goals simpa [didChangeState_play_history] using h
  | opRemove i index now =>
    simp only [applyOp, remove]
    repeat' split
    all_goals simpa [didChangeState_play_history] using h
  | opRemovePw i password hash index now =>
    simp only [applyOp, remove_if_password_correct]
    repeat' split
    all_goals simpa [didChangeState_play_history] using h
  | opSwap id1 id2 index now =>
    simp only [applyOp, swap]
    repeat' split
    all_goals simpa [didChangeState_play_history] using h
  | opMoveAfter i after index now =>
    simp only [applyOp, move_after]
    repeat' split
    all_goals simpa [didChangeState_play_history] using h
  | opMoveTop i index now =>
    simp only [applyOp, move_top]
    repeat' split
    all_goals simpa [didChangeState_play_history] using h

/-- Capacity is preserved along any sequence of operations. -/
theorem applyOps_history_le (valid : List Int) (ops : List Op) :
    ∀ st : InnerPlaylist, st.play_history.length ≤ MAX_PLAY_HISTORY →
      (applyOps valid st ops).play_history.length ≤ MAX_PLAY_HISTORY := by
  induction ops with
  | nil => exact fun _ h => h
  | cons op rest ih =>
    intro st h
    exact ih _ (applyOp_history_le valid op st h)

/-- C7: after any sequence of operations from the empty starting state the
play history never holds more than 3 entries, and when Advance finds its
entry while the history is at capacity 3 the oldest (front) entry is evicted
and the newly played entry is appended at the back, keeping the history
ordered oldest-first. -/
theorem play_history_bounded (valid : List Int) (ops : List Op) :
    (applyOps valid InnerPlaylist.empty ops).play_history.length ≤
      MAX_PLAY_HISTORY ∧
    (∀ (index : SearchIndex) (now : Int) (i : Nat) (st : InnerPlaylist)
        (idx : Nat) (e : PlaylistEntry),
      findEntry st.list i = some (idx, e) →
      index.searchFails = false →
      st.play_history.length = MAX_PLAY_HISTORY →
      (play index now i st).2.play_history = st.play_history.tail ++ [e]) := by
  constructor
  · exact applyOps_history_le valid ops InnerPlaylist.empty (by decide)
  · intro index now i st idx e hf hs hlen
    rw [play_history_shape index now i st idx e hf hs,
      if_pos (le_of_eq hlen.symm)]

/-- State with a full (capacity 3) history and one pending entry. -/
def stFull : InnerPlaylist :=
  { play_history := [entry0, entry2, entry3], list := [entry1],
    intermission_duration := 0, intermission_count := 0 }

/-- Witness for C7: playing into a full history evicts the front entry and
appends the new one at the back. -/
theorem play_history_bounded_witness :
    (applyOps [7] InnerPlaylist.empty []).play_history.length ≤
      MAX_PLAY_HISTORY ∧
    (play okIndex 400 1 stFull).2.play_history =
      [entry2, entry3, entry1] := by
  refine ⟨(play_history_bounded [7] []).1, ?_⟩
  exact (play_history_bounded [7] []).2 okIndex 400 1 stFull 0 entry1
    rfl rfl rfl

/-- The prediction walk yields a non-decreasing chain from its starting
timestamp when every song resolves with a non-negative duration and the
average intermission is non-negative. -/
theorem predictWalk_chain (lookup : Int → Option SongInfo) (avg : Int)
    (havg : 0 ≤ avg) :
    ∀ (ts : Int) (l : List PlaylistEntry),
      (∀ p ∈ l, ∃ s, lookup p.song = some s ∧ 0 ≤ s.duration) →
      List.Chain' (fun x y => x ≤ y)
        (ts :: (predictWalk lookup avg ts l).map (fun e => e.predicted_end))
  | _, [], _ => by simp [predictWalk]
  | ts, e :: rest, h => by
    obtain ⟨s, hs, hd⟩ := h e (List.mem_cons_self e rest)
    have ih := predictWalk_chain lookup avg havg (ts + avg + s.duration) rest
      (fun p hp => h p (List.mem_cons_of_mem e hp))
    simp only [predictWalk, hs, List.map_cons]
    rw [List.chain'_cons]
    exact ⟨by omega, ih⟩

/-- A non-negative accumulated intermission duration makes the apply-change
recomputation produce non-decreasing predicted ends whenever all songs
resolve with non-negative durations. -/
theorem predictions_monotone_of_nonneg (index : SearchIndex) (now : Int)
    (st : InnerPlaylist)
    (hres : ∀ p ∈ st.list,
      ∃ s, index.lookup p.song = some s ∧ 0 ≤ s.duration)
    (hstat : 0 ≤ st.intermission_duration)
    (hs : index.searchFails = false) :
    List.Chain' (fun x y => x ≤ y)
      ((didChangeState index now st).list.map (fun e => e.predicted_end)) := by
  have havg : 0 ≤ averageIntermission st := by
    unfold averageIntermission
    split
    · exact le_refl 0
    · exact Int.ediv_nonneg hstat (Int.natCast_nonneg _)
  have h := predictWalk_chain index.lookup (averageIntermission st) havg
    (startTimestamp now st) st.list hres
  simpa [didChangeState, hs] using h.tail

/-- `play` keeps the accumulated intermission duration non-negative: the
measured delta is only added when strictly positive. -/
theorem play_intermission_nonneg (index : SearchIndex) (now : Int) (i : Nat)
    (st : InnerPlaylist) (h : 0 ≤ st.intermission_duration) :
    0 ≤ (play index now i st).2.intermission_duration := by
  rcases hf : findEntry st.list i with _ | ⟨idx, e⟩
  · simpa [play, hf] using h
  · cases hs : index.searchFails with
    | true => simpa [play, hf, hs] using h
    | false =>
      simp only [play, hf, hs, Bool.false_eq_true, if_false,
        didChangeState_intermission_duration]
      split
      · exact h
      · split
        · rename_i hcond
          have h2 := hcond.2
          dsimp only
          omega
        · exact h

/-- Every operation keeps the accumulated intermission duration
non-negative. -/
theorem applyOp_intermission_nonneg (valid : List Int) (op : Op)
    (st : InnerPlaylist) (h : 0 ≤ st.intermission_duration) :
    0 ≤ (applyOp valid st op).intermission_duration := by
  cases op with
  | opPlay i index now => exact play_intermission_nonneg index now i st h
  | opAdd song singer password hash newId index now =>
    simp only [applyOp, add]
    repeat' split
    all_goals simpa [didChangeState_intermission_duration] using h
  | opRemove i index now =>
    simp only [applyOp, remove]
    repeat' split
    all_goals simpa [didChangeState_intermission_duration] using h
  | opRemovePw i password hash index now =>
    simp only [applyOp, remove_if_password_correct]
    repeat' split
    all_goals simpa [didChangeState_intermission_duration] using h
  | opSwap id1 id2 index now =>
    simp only [applyOp, swap]
    repeat' split
    all_goals simpa [didChangeState_intermission_duration] using h
  | opMoveAfter i after index now =>
    simp only [applyOp, move_after]
    repeat' split
    all_goals simpa [didChangeState_intermission_duration] using h
  | opMoveTop i index now =>
    simp only [applyOp, move_top]
    repeat' split
    all_goals simpa [didChangeState_intermission_duration] using h

/-- The non-negative-statistics invariant holds along any op sequence. -/
theorem applyOps_intermission_nonneg (valid : List Int) (ops : List Op) :
    ∀ st : InnerPlaylist, 0 ≤ st.intermission_duration →
      0 ≤ (applyOps valid st ops).intermission_duration := by
  induction ops with
  | nil => exact fun _ h => h
  | cons op rest ih =>
    intro st h
    exact ih _ (applyOp_intermission_nonneg valid op st h)

/-- C8: in any state reached by a sequence of operations from the empty
starting state, whenever every song referenced by the pending queue is
resolvable by the catalog with a non-negative duration, the predicted end
times of the entries are non-decreasing in queue order after the
apply-change recomputation. -/
theorem predicted_end_monotone (valid : List Int) (ops : List Op)
    (index : SearchIndex) (now : Int)
    (hres : ∀ p ∈ (applyOps valid InnerPlaylist.empty ops).list,
      ∃ s, index.lookup p.song = some s ∧ 0 ≤ s.duration)
    (hs : index.searchFails = false) :
    List.Chain' (fun x y => x ≤ y)
      ((didChangeState index now
        (applyOps valid InnerPlaylist.empty ops)).list.map
          (fun e => e.predicted_end)) :=
  predictions_monotone_of_nonneg index now _ hres
    (applyOps_intermission_nonneg valid ops InnerPlaylist.empty (by decide))
    hs

/-- Witness for C8: two submissions followed by a recomputation yield
non-decreasing predicted ends. -/
theorem predicted_end_monotone_witness :
    List.Chain' (fun x y => x ≤ y)
      ((didChangeState okIndex 0
        (applyOps [7] InnerPlaylist.empty
          [Op.opAdd 7 "s" "p" (fun s => s) 1 okIndex 0,
           Op.opAdd 7 "s" "p" (fun s => s) 2 okIndex 0])).list.map
        (fun e => e.predicted_end)) :=
  predicted_end_monotone [7]
    [Op.opAdd 7 "s" "p" (fun s => s) 1 okIndex 0,
     Op.opAdd 7 "s" "p" (fun s => s) 2 okIndex 0]
    okIndex 0 (fun _ _ => ⟨demoSong, rfl, by decide⟩) rfl

/-- C10: every id-targeted operation searches only the pending queue: when
the id is absent from the pending list — whether it appears in the play
history as an already-played entry or nowhere at all — `play`, `remove`,
`remove_if_password_correct`, `swap` (either argument position),
`move_after` (either position) and `move_top` report not-found/false and
leave the whole state (queue, history and statistics) unchanged. -/
theorem missing_id_no_effect (hash : String → String) (index : SearchIndex)
    (now : Int) (i other : Nat) (pw : String) (st : InnerPlaylist)
    (hid : ∀ e ∈ st.list, e.id ≠ i) :
    play index now i st = (false, st) ∧
    remove index now i st = (false, st) ∧
    remove_if_password_correct hash index now i pw st = (false, st) ∧
    swap index now i other st = (false, st) ∧
    swap index now other i st = (false, st) ∧
    move_after index now i other st = (false, st) ∧
    move_after index now other i st = (false, st) ∧
    move_top index now i st = (false, st) := by
  have hnone : findEntry st.list i = none := findEntry_eq_none.mpr hid
  refine ⟨?_, ?_, ?_, ?_, ?_, ?_, ?_, ?_⟩
  · simp [play, hnone]
  · simp [remove, hnone]
  · simp [remove_if_password_correct, hnone]
  · by_cases h : i = other
    · simp [swap, h]
    · simp [swap, h, hnone]
  · by_cases h : other = i
    · simp [swap, h]
    · rcases ho : findEntry st.list other with _ | ⟨j, e2⟩
      · simp [swap, h, ho]
      · simp [swap, h, ho, hnone]
  · by_cases h : i = other
    · simp [move_after, h]
    · simp [move_after, h, hnone]
  · by_cases h : other = i
    · simp [move_after, h]
    · rcases ho : findEntry st.list other with _ | ⟨j, e2⟩
      · simp [move_after, h, ho]
      · simp [move_after, h, ho, hnone]
  · simp [move_top, hnone]

/-- Already-played entry with id 5 (only in the history). -/
def entry5 : PlaylistEntry :=
  { id := 5, song := 7, singer := "s", password_hash := "h",
    predicted_end := 0 }

/-- State whose history holds id 5 while the pending list does not. -/
def stHist : InnerPlaylist :=
  { play_history := [entry5], list := [entry1],
    intermission_duration := 0, intermission_count := 0 }

/-- Witness for C10: targeting id 5, present only in the history, returns
false and leaves the state unchanged. -/
theorem missing_id_no_effect_witness :
    play okIndex 0 5 stHist = (false, stHist) ∧
    move_top okIndex 0 5 stHist = (false, stHist) := by
  obtain ⟨h1, _, _, _, _, _, _, h8⟩ :=
    missing_id_no_effect (fun s => s) okIndex 0 5 2 "pw" stHist (by decide)
  exact ⟨h1, h8⟩

end Karaoke
